import Mathlib

/-!
Verification development for the DocFlux client-side document conversion engine.

The definitions below are a shallow embedding of the conversion core:

* file classification (`getFileTypeInfo`),
* the compatibility matrix (`getValidTargetFormats`),
* the conversion-error oracle (`getConversionError`),
* the per-file conversion pipeline (`convertFile` and the format-specific
  converters it dispatches to), including PDF text extraction with OCR
  fallback,
* ZIP packaging of batch results (`createZipDownload`),
* the conversion queue operations (`convertAll`, `convertSpecific`,
  `convertSelectedFiles`, `retryItem`, …), and
* the page-assembly `splitPDF` operation.

External browser/library capabilities (pdf.js text extraction, mammoth DOCX
text extraction, XLSX sheet reading, image decoding, canvas encoding,
Tesseract OCR, JSON.parse) are modelled as an explicit capability record
`ConvEnv`; every output produced through such a capability is represented by
a constructor carrying exactly the parameters of the producing call.
Progress reporting is modelled by returning, alongside the result, the list
of values passed to the `onProgress` callback, in call order; fractional
progress values are rationals.
-/

namespace DocFlux

/-- A single-quote character as a string, used inside user-facing messages. -/
def sq : String := String.singleton (Char.ofNat 39)

/-! ### Primitive string operations

The JavaScript string primitives the source uses, implemented by structural
recursion over the character list (ASCII case mapping suffices for every
string the source compares case-insensitively). -/

/-- `split` on a single-character separator (`"".split(c)` is `[""]`). -/
def splitChar (sep : Char) : List Char → List (List Char)
  | [] => [[]]
  | c :: rest =>
    let r := splitChar sep rest
    if c = sep then [] :: r
    else
      match r with
      | [] => [[c]]
      | h :: t => (c :: h) :: t

/-- `s.split(sep)` for a one-character separator. -/
def jsSplit (s : String) (sep : Char) : List String :=
  (splitChar sep s.data).map List.asString

/-- `toLowerCase` (ASCII). -/
def asciiLower (s : String) : String := ⟨s.data.map Char.toLower⟩

/-- `toUpperCase` (ASCII). -/
def asciiUpper (s : String) : String := ⟨s.data.map Char.toUpper⟩

/-- JavaScript `\s` on the ASCII range (the claims use only ASCII data). -/
def jsWs (c : Char) : Bool :=
  c.isWhitespace || c == Char.ofNat 11 || c == Char.ofNat 12

/-- `trim`: drop whitespace from both ends. -/
def jsTrim (s : String) : String :=
  ⟨(((s.data.dropWhile jsWs).reverse.dropWhile jsWs).reverse)⟩

/-- `startsWith`. -/
def strStartsWith (s pre : String) : Bool := pre.data.isPrefixOf s.data

/-- Whether a list of progress values is non-decreasing. -/
def nonDecreasing : List Rat → Bool
  | [] => true
  | [_] => true
  | a :: b :: rest => decide (a ≤ b) && nonDecreasing (b :: rest)

/-! ## File model

A browser `File` as the conversion core consumes it: a name, a declared MIME
type, the text decoding of its content (what `file.text()` returns), and an
abstract identity for its raw bytes. -/

structure JsFile where
  name : String
  mimeType : String
  size : Nat
  text : String
  bytesId : Nat
deriving DecidableEq, Repr

/-! ## FileClassifier -/

inductive Category where
  | document | image | spreadsheet | presentation | text | pdf | unknown
deriving DecidableEq, Repr

structure FileTypeInfo where
  category : Category
  extension : String
  mimeType : String
deriving DecidableEq, Repr

/-- The extension computed by `file.name.split('.').pop()?.toLowerCase() || ''`:
the last dot-separated component of the name, lower-cased (for a dotless name
this is the whole name, as in JavaScript). -/
def extOf (name : String) : String :=
  asciiLower ((jsSplit name (Char.ofNat 46)).getLastD "")

/-- `getFileTypeInfo`: classify a file by MIME type and extension.
Rule order follows the source exactly; the first matching rule wins. -/
def getFileTypeInfo (f : JsFile) : FileTypeInfo :=
  let extension := extOf f.name
  let mimeType := f.mimeType
  if mimeType = "application/pdf" ∨ extension = "pdf" then
    ⟨.pdf, extension, mimeType⟩
  else if strStartsWith mimeType "image/" ∨
      extension ∈ ["png", "jpg", "jpeg", "gif", "bmp", "webp"] then
    ⟨.image, extension, mimeType⟩
  else if extension ∈ ["docx", "doc", "rtf", "odt"] then
    ⟨.document, extension, mimeType⟩
  else if extension ∈ ["xlsx", "xls", "csv", "ods"] then
    ⟨.spreadsheet, extension, mimeType⟩
  else if extension ∈ ["pptx", "ppt", "odp"] then
    ⟨.presentation, extension, mimeType⟩
  else if extension ∈ ["txt", "md", "json"] ∨ strStartsWith mimeType "text/" then
    ⟨.text, extension, mimeType⟩
  else
    ⟨.unknown, extension, mimeType⟩

/-! ## CompatibilityMatrix -/

inductive Format where
  | pdf | png | jpg | txt | csv | docx
deriving DecidableEq, Repr

/-- The string value of a target format (the literal used in the source). -/
def Format.str : Format → String
  | .pdf => "pdf"
  | .png => "png"
  | .jpg => "jpg"
  | .txt => "txt"
  | .csv => "csv"
  | .docx => "docx"

structure TargetFormatDescriptor where
  format : Format
  label : String
  description : String
  willZip : Bool
  warning : Option String := none
deriving DecidableEq, Repr

/-- `getValidTargetFormats`: the compatibility matrix. Given the
classifications of every file in a prospective batch, produce the list of
valid target formats in source order (pdf, png, jpg, txt, csv, docx), each
gated independently. `[...new Set(...)]` is modelled by `List.dedup`
(only membership in the category set is consumed). -/
def getValidTargetFormats (fileTypes : List FileTypeInfo) :
    List TargetFormatDescriptor :=
  if fileTypes.length = 0 then [] else
  let categories := (fileTypes.map (·.category)).dedup
  let anyPdf := fileTypes.any (fun f => f.category == Category.pdf)
  let pdfImgWarning : Option String :=
    if anyPdf then some "PDFs will create one image per page" else none
  (if categories.contains Category.unknown then [] else
    [{ format := .pdf, label := "PDF",
       description := "Universal document format", willZip := false }]) ++
  (if categories.all (fun cat => cat == Category.image || cat == Category.pdf) then
    [{ format := .png, label := "PNG", description := "High-quality images",
       willZip := anyPdf, warning := pdfImgWarning },
     { format := .jpg, label := "JPG", description := "Compressed images",
       willZip := anyPdf, warning := pdfImgWarning }] else []) ++
  (if categories.all (fun cat =>
      cat == Category.document || cat == Category.pdf ||
      cat == Category.text || cat == Category.spreadsheet) then
    [{ format := .txt, label := "TXT", description := "Plain text extraction",
       willZip := false }] else []) ++
  (if categories.all (fun cat =>
      cat == Category.spreadsheet || cat == Category.text) then
    [{ format := .csv, label := "CSV", description := "Comma-separated values",
       willZip := fileTypes.any
         (fun f => f.extension == "xlsx" || f.extension == "xls") }] else []) ++
  (if categories.all (fun cat => cat == Category.text || cat == Category.pdf) then
    [{ format := .docx, label := "DOCX", description := "Word document",
       willZip := false,
       warning := if anyPdf then
         some "PDF to DOCX may alter layout (beta feature)" else none }] else [])

/-! ## Conversion Error Oracle -/

/-- The `impossibleConversions` table: target-format strings that are
impossible for a category. Categories absent from the record map to `[]`. -/
def impossibleTargets : Category → List String
  | .text => ["png", "jpg"]
  | .image => ["docx", "csv", "xlsx"]
  | .unknown => ["pdf", "png", "jpg", "txt", "csv", "docx"]
  | _ => []

/-- `getConversionError`: the conversion-error oracle. Returns a
human-readable message for impossible category/target combinations and
`none` otherwise. The target format is a string, as in the source. -/
def getConversionError (fileType : FileTypeInfo) (targetFormat : String) :
    Option String :=
  let category := fileType.category
  let extension := fileType.extension
  if (impossibleTargets category).contains targetFormat then
    some (
      if (category == Category.text && (targetFormat == "png" || targetFormat == "jpg")) then
        asciiUpper extension ++ " → " ++ asciiUpper targetFormat ++ " isn" ++ sq ++
          "t supported. Choose PDF to wrap text as pages."
      else if category == Category.image && targetFormat == "docx" then
        asciiUpper extension ++ " → DOCX isn" ++ sq ++
          "t supported. Try PDF for image documents."
      else if category == Category.image && targetFormat == "csv" then
        asciiUpper extension ++ " → CSV isn" ++ sq ++
          "t supported. Images don" ++ sq ++ "t contain tabular data."
      else
        asciiUpper extension ++ " → " ++ asciiUpper targetFormat ++
          " conversion is not supported.")
  else
    none

/-! ## JSON values

JSON values as `JSON.parse` produces them. The embedding restricts JSON
numbers to integers (every claim input is integral); object fields are in
insertion order with distinct keys, as after parsing. -/

inductive Json where
  | null
  | bool (b : Bool)
  | num (n : Int)
  | str (s : String)
  | arr (elems : List Json)
  | obj (fields : List (String × Json))

/-- One lowercase hex digit, as used by `JSON.stringify` escapes. -/
def hexDigit (n : Nat) : String :=
  (["0", "1", "2", "3", "4", "5", "6", "7", "8", "9",
    "a", "b", "c", "d", "e", "f"]).getD n "0"

/-- `JSON.stringify` escaping of a single character inside a string literal. -/
def jsonEscChar (c : Char) : String :=
  if c = Char.ofNat 34 then "\\" ++ String.singleton (Char.ofNat 34)
  else if c = '\\' then "\\\\"
  else if c = Char.ofNat 8 then "\\b"
  else if c = '\t' then "\\t"
  else if c = '\n' then "\\n"
  else if c = Char.ofNat 12 then "\\f"
  else if c = '\r' then "\\r"
  else if c.toNat < 32 then
    "\\u00" ++ hexDigit (c.toNat / 16) ++ hexDigit (c.toNat % 16)
  else String.singleton c

/-- `JSON.stringify` of a string (quoted, escaped). -/
def jsonQuote (s : String) : String :=
  String.singleton (Char.ofNat 34) ++ String.join (s.data.map jsonEscChar) ++
    String.singleton (Char.ofNat 34)

mutual

/-- `JSON.stringify` of a value (no replacer, no indentation). -/
def Json.stringify : Json → String
  | .null => "null"
  | .bool true => "true"
  | .bool false => "false"
  | .num n => toString n
  | .str s => jsonQuote s
  | .arr elems => "[" ++ stringifyList elems ++ "]"
  | .obj fields => "\x7b" ++ stringifyFields fields ++ "\x7d"

def Json.stringifyList : List Json → String
  | [] => ""
  | [v] => v.stringify
  | v :: rest => v.stringify ++ "," ++ stringifyList rest

def Json.stringifyFields : List (String × Json) → String
  | [] => ""
  | [(k, v)] => jsonQuote k ++ ":" ++ v.stringify
  | (k, v) :: rest => jsonQuote k ++ ":" ++ v.stringify ++ "," ++ stringifyFields rest

end

/-- JavaScript `typeof v === 'object'` for a JSON value: true for objects,
arrays, and `null`. -/
def Json.typeofObject : Json → Bool
  | .null => true
  | .arr _ => true
  | .obj _ => true
  | _ => false

/-- JavaScript truthiness of a JSON value. -/
def Json.truthy : Json → Bool
  | .null => false
  | .bool b => b
  | .num n => n != 0
  | .str s => s != ""
  | .arr _ => true
  | .obj _ => true

/-- The numeric value of a list of decimal digits. -/
def digitsToNat (l : List Char) : Nat :=
  l.foldl (fun acc c => acc * 10 + (c.toNat - 48)) 0

/-- A string that is a canonical array index (`"0"`, `"1"`, …): nonempty,
all digits, no leading zero except for `"0"` itself. -/
def canonIndex (key : String) : Option Nat :=
  match key.data with
  | [] => none
  | d :: rest =>
    if (d :: rest).all Char.isDigit && (d != '0' || rest.isEmpty) then
      some (digitsToNat (d :: rest))
    else none

/-- `Object.keys(v)`: `none` models the `TypeError` thrown for `null`;
arrays and strings expose their index keys, other primitives none. -/
def Json.jsKeys : Json → Option (List String)
  | .null => none
  | .obj fields => some (fields.map (·.1))
  | .arr elems => some ((List.range elems.length).map toString)
  | .str s => some ((List.range s.length).map toString)
  | _ => some []

/-- `row[key]` on a JSON value: outer `none` models the `TypeError` thrown
when `row` is `null`; inner `none` is JavaScript `undefined`. -/
def Json.jsGet : Json → String → Option (Option Json)
  | .null, _ => none
  | .obj fields, key => some ((fields.lookup key).map id)
  | .arr elems, key =>
    some (if key = "length" then some (.num elems.length) else
      match canonIndex key with
      | some i => elems.get? i
      | none => none)
  | .str s, key =>
    some (if key = "length" then some (.num s.length) else
      match canonIndex key with
      | some i => (s.data.get? i).map (fun c => Json.str (String.singleton c))
      | none => none)
  | .num _, _ => some none
  | .bool _, _ => some none

/-- One CSV cell: `JSON.stringify(row[header] || '')`. `none` models a
thrown member access. -/
def csvCell (row : Json) (header : String) : Option String :=
  (row.jsGet header).map (fun v =>
    Json.stringify (match v with
      | some w => if w.truthy then w else .str ""
      | none => .str ""))

/-- The guard of the JSON→CSV branch:
`Array.isArray(data) && data.length > 0 && typeof data[0] === 'object'`. -/
def isArrayWithObjectHead : Json → Bool
  | .arr (first :: _) => first.typeofObject
  | _ => false

/-- The body of the `try` block of the JSON branch of `convertToCSV`:
header row from the first element, one row per element, cells individually
`JSON.stringify`-ed. `none` models any throw inside the `try` (including the
explicit array-of-objects check); the caller maps every such throw to the
single message `"Invalid JSON format for CSV conversion"`. -/
def jsonArrayToCsv (data : Json) : Option String :=
  match data with
  | .arr (first :: rest) =>
    if first.typeofObject then do
      let headers ← first.jsKeys
      let rows ← (first :: rest).mapM (fun row =>
        (headers.mapM (csvCell row)).map (String.intercalate ","))
      some (String.intercalate "\n" (String.intercalate "," headers :: rows))
    else none
  | _ => none

/-! ## String helpers shared by the converters -/

/-- One pass of `replace(/\s+/g, ' ')`: each maximal whitespace run becomes
a single space (`inRun` tracks whether the current run already emitted its
space). -/
def collapseWsAux (inRun : Bool) : List Char → List Char
  | [] => []
  | c :: rest =>
    if jsWs c then
      if inRun then collapseWsAux true rest
      else ' ' :: collapseWsAux true rest
    else c :: collapseWsAux false rest

/-- `replace(/\s+/g, ' ')`. -/
def collapseWs (s : String) : String := ⟨collapseWsAux false s.data⟩

/-- The index of the last newline in a character list, if any. -/
def lastNewlineIdx (l : List Char) : Option Nat :=
  (l.enum.filter (fun p => p.2 = '\n')).getLast? |>.map (·.1)

/-- One step of `replace(/\n\s*\n/g, '\n\n')`: at a newline, the greedy
`\s*` consumes the maximal whitespace run up to the last newline inside it;
if that run contains another newline the whole match becomes `"\n\n"` and
scanning resumes after it. The fuel argument (initially the list length,
which bounds the number of steps) makes the recursion structural. -/
def normalizeParaAux : Nat → List Char → List Char
  | 0, l => l
  | _ + 1, [] => []
  | fuel + 1, c :: rest =>
    if c = '\n' then
      match lastNewlineIdx (rest.takeWhile jsWs) with
      | some k => '\n' :: '\n' :: normalizeParaAux fuel (rest.drop (k + 1))
      | none => c :: normalizeParaAux fuel rest
    else c :: normalizeParaAux fuel rest

/-- `replace(/\n\s*\n/g, '\n\n')`. -/
def normalizeParaBreaks (s : String) : String :=
  ⟨normalizeParaAux s.data.length s.data⟩

/-- `wrapText`: the word-wrap helper used by the text-to-PDF converters.
Greedy fill at an estimated character budget derived from the font size. -/
def wrapText (text : String) (maxWidth : Rat) (fontSize : Rat) : List String :=
  let words := jsSplit text ' '
  let charWidth := fontSize * (6 / 10)
  let maxCharsPerLine : Int := Rat.floor (maxWidth / charWidth)
  let step := fun (st : List String × String) (word : String) =>
    let (lines, currentLine) := st
    let testLine := currentLine ++ (if currentLine ≠ "" then " " else "") ++ word
    if (testLine.length : Int) ≤ maxCharsPerLine then (lines, testLine)
    else ((if currentLine ≠ "" then lines ++ [currentLine] else lines), word)
  let (lines, currentLine) := words.foldl step ([], "")
  if currentLine ≠ "" then lines ++ [currentLine] else lines

/-! ## PreservationSettings -/

inductive Fidelity where
  | fast | balanced | best
deriving DecidableEq, Repr

inductive PdfForms where
  | keep | flatten
deriving DecidableEq, Repr

inductive DocxChanges where
  | accept | reject | keep
deriving DecidableEq, Repr

inductive Comments where
  | keep | remove
deriving DecidableEq, Repr

inductive ImageHandling where
  | auto | lossless | lossy
deriving DecidableEq, Repr

structure PreservationSettings where
  fidelity : Fidelity
  pdfForms : PdfForms
  docxChanges : DocxChanges
  comments : Comments
  imageHandling : ImageHandling
  imageQuality : Nat
deriving DecidableEq, Repr

/-- `preservationSettings?.fidelity || 'balanced'` (every fidelity string is
truthy, so only an absent settings object falls back). -/
def fidelityOf : Option PreservationSettings → Fidelity
  | some s => s.fidelity
  | none => .balanced

/-- `preservationSettings?.fidelity === 'best'`. -/
def fidelityIsBest : Option PreservationSettings → Bool
  | some s => s.fidelity == .best
  | none => false

/-! ## Conversion engine

`OutBlob` represents a produced result blob by the call that produced it:
the original `File` object when a converter returns the input unchanged, a
text blob with its content and MIME type, a canvas re-encode with the exact
encoder parameters, or a built PDF/DOCX container identified by its semantic
inputs (the byte-level serialization of pdf-lib/JSZip output is outside
every claim and is abstracted to those inputs). -/

inductive OutBlob where
  | original (file : JsFile)
  | textBlob (content : String) (mime : String)
  | canvasEncoded (source : JsFile) (mime : String) (width height : Nat)
      (quality : Option Rat) (whiteFill : Bool)
  | pdfImagePage (source : JsFile) (width height : Nat) (png : Bool)
  | pdfText (text : String)
  | pdfSheet (lines : List String)
  | docxZip (text : String) (best : Bool)
deriving DecidableEq, Repr

/-- One positioned text fragment from `page.getTextContent()`:
`str`, `transform[4]` (x) and `transform[5]` (y). -/
structure PdfTextItem where
  str : String
  tx : Rat
  ty : Rat
deriving DecidableEq, Repr

/-- One Tesseract run: the `recognizing text` logger progress events (each in
`[0,1]`), the progress calls emitted before a throw when the run fails, and
the outcome. -/
structure OcrRun where
  events : List Rat
  failEmitted : List Rat
  result : Except Unit String

/-- The external capabilities the converters call out to. Each is a function
of the file (and call parameters), so repeated calls with equal arguments
behave identically, matching a deterministic environment. -/
structure ConvEnv where
  pdfPages : JsFile → Except String (List (List PdfTextItem))
  mammoth : JsFile → Bool → Except String String
  sheetCsv : JsFile → Except String String
  imageDims : JsFile → Except Unit (Nat × Nat)
  canvasOk : JsFile → String → Nat × Nat → Option Rat → Bool → Bool
  embedImage : JsFile → Except String (Nat × Nat)
  ocr : JsFile → OcrRun
  parseJson : String → Except Unit Json

def ocrFailedMessage : String :=
  "OCR text extraction failed. This may be a scanned document that requires manual processing."

def noReadableMessage : String := "No readable text found in this PDF."

/-- `extractTextWithOCR`: run Tesseract on the whole file. Internal failures
are caught and mapped to the fixed placeholder `ocrFailedMessage`; the
recognized text is cleaned per fidelity. Returns the result together with
the progress calls it makes. -/
def extractTextWithOCR (env : ConvEnv) (file : JsFile)
    (settings : Option PreservationSettings) : String × List Rat :=
  let run := env.ocr file
  match run.result with
  | .ok text =>
    let cleaned :=
      if fidelityIsBest settings then normalizeParaBreaks (jsTrim text)
      else jsTrim (collapseWs (jsTrim text))
    (cleaned, [85] ++ run.events.map (fun p => 80 + p * 15) ++ [98])
  | .error _ => (ocrFailedMessage, run.failEmitted)

/-- `Math.round` (round half toward positive infinity). -/
def jsRound (q : Rat) : Int := Rat.floor (q + 1 / 2)

/-- Stable insertion of `x` into `l` under a JavaScript numeric comparator:
`x` goes before the first element it strictly precedes. -/
def sortInsert (cmp : PdfTextItem → PdfTextItem → Rat) (x : PdfTextItem) :
    List PdfTextItem → List PdfTextItem
  | [] => [x]
  | y :: ys => if cmp x y < 0 then x :: y :: ys else y :: sortInsert cmp x ys

/-- A stable sort under a JavaScript numeric comparator; models
`Array.prototype.sort` (stable since ES2019) for consistent comparators. -/
def stableSort (cmp : PdfTextItem → PdfTextItem → Rat)
    (l : List PdfTextItem) : List PdfTextItem :=
  l.foldl (fun acc x => sortInsert cmp x acc) []

/-- The `best`-fidelity comparator: by descending y when the y difference
exceeds 5 units, otherwise by ascending x. -/
def bestCmp (a b : PdfTextItem) : Rat :=
  if |a.ty - b.ty| > 5 then b.ty - a.ty else a.tx - b.tx

/-- The text assembled from one page's fragments. `best` fidelity sorts by
position and inserts a line break when the rounded y jumps by more than 5;
other fidelities join the fragments in source order with single spaces. -/
def nativePageText (fidelity : Fidelity) (items : List PdfTextItem) : String :=
  if fidelity = .best then
    let sortedItems := stableSort bestCmp items
    (sortedItems.foldl (fun (st : String × Option Int) item =>
      let (pageText, currentY) := st
      let y := jsRound item.ty
      let pageText :=
        (match currentY with
         | some cy => if (cy - y).natAbs > 5 then pageText ++ "\n" else pageText
         | none => pageText) ++ item.str ++ " "
      (pageText, some y)) ("", none)).1
  else
    String.intercalate " " (items.map (·.str))

/-- The concatenated native extraction across all pages, with
`--- Page N ---` separators for multi-page documents and empty pages
skipped. -/
def nativeExtract (pages : List (List PdfTextItem)) (fidelity : Fidelity) :
    String :=
  let totalPages := pages.length
  (pages.foldl (fun (st : String × Nat) items =>
    let (extractedText, pageNum) := st
    let pageText := jsTrim (nativePageText fidelity items)
    let extractedText :=
      if pageText ≠ "" then
        if totalPages > 1 then
          extractedText ++ "\n--- Page " ++ toString pageNum ++ " ---\n" ++
            pageText ++ "\n"
        else extractedText ++ pageText
      else extractedText
    (extractedText, pageNum + 1)) ("", 1)).1

/-- The per-page progress calls `30 + (pageNum / totalPages) * 40`. -/
def pageTrace (totalPages : Nat) : List Rat :=
  (List.range totalPages).map
    (fun i => 30 + ((i + 1 : Rat) / (totalPages : Rat)) * 40)

/-- `extractTextFromPDF`: native pdf.js text extraction with OCR fallback.
When the concatenated native text (trimmed) is shorter than 50 characters
and fidelity is not `fast`, the OCR result replaces it; when pdf.js itself
throws, non-`fast` fidelity falls back to OCR (whose own failure is caught
inside `extractTextWithOCR`, so the corrupted-file error path is
unreachable) while `fast` fidelity surfaces an error. -/
def extractTextFromPDF (env : ConvEnv) (file : JsFile)
    (settings : Option PreservationSettings) :
    Except String String × List Rat :=
  match env.pdfPages file with
  | .error _ =>
    if fidelityOf settings ≠ .fast then
      let (t, tr) := extractTextWithOCR env file settings
      (.ok t, [10, 20, 40] ++ tr)
    else
      (.error ("Failed to extract text from PDF. Try using \"Balanced\" or \"Best\" fidelity for OCR fallback."),
       [10, 20])
  | .ok pages =>
    let fidelity := fidelityOf settings
    let native := nativeExtract pages fidelity
    let baseTrace : List Rat := [10, 20, 30] ++ pageTrace pages.length
    if (jsTrim native).length < 50 ∧ fidelity ≠ .fast then
      let (t, tr) := extractTextWithOCR env file settings
      (.ok (if jsTrim t = "" then noReadableMessage else jsTrim t),
       baseTrace ++ [75] ++ tr)
    else
      (.ok (if jsTrim native = "" then noReadableMessage else jsTrim native),
       baseTrace)

/-- `convertToPDF` and its per-category helpers. Page geometry and drawing
are abstracted to the semantic content of the produced document; progress
calls and control flow follow the source. -/
def convertToPDF (env : ConvEnv) (file : JsFile)
    (_settings : Option PreservationSettings) :
    Except String OutBlob × List Rat :=
  let info := getFileTypeInfo file
  match info.category with
  | .pdf => (.ok (.original file), [30, 100])
  | .image =>
    match env.embedImage file with
    | .ok (w, h) =>
      (.ok (.pdfImagePage file w h (file.mimeType == "image/png")),
       [30, 40, 60, 80, 90, 100])
    | .error e => (.error e, [30, 40, 60])
  | .document =>
    match env.mammoth file false with
    | .ok text => (.ok (.pdfText text), [30, 40, 50, 70, 90, 100])
    | .error e => (.error e, [30, 40, 50])
  | .spreadsheet =>
    match env.sheetCsv file with
    | .ok csvData =>
      (.ok (.pdfSheet ((jsSplit csvData (Char.ofNat 10)).take 50)),
       [30, 40, 50, 70, 90, 100])
    | .error e => (.error e, [30, 40, 50])
  | .text => (.ok (.pdfText file.text), [30, 40, 60, 90, 100])
  | .presentation =>
    (.ok (.pdfText ("Presentation: " ++ file.name ++
      "\n\nThis is a placeholder conversion.\nFull presentation conversion requires additional libraries.")),
     [30, 40, 60, 90, 100])
  | .unknown =>
    (.error ("Unsupported file type for PDF conversion: " ++ info.extension),
     [30, 40])

/-- `convertToImage`: decode, draw to canvas (white-filled first for jpg),
re-encode at a quality derived from the image-handling setting. The
`onProgress(40)` after `img.src` assignment precedes the decode result. -/
def convertToImage (env : ConvEnv) (file : JsFile) (targetFormat : String)
    (settings : Option PreservationSettings) :
    Except String OutBlob × List Rat :=
  match env.imageDims file with
  | .error _ => (.error "Failed to load image", [40])
  | .ok (w, h) =>
    let quality : Rat :=
      match settings with
      | some s =>
        if s.imageHandling = .lossless then 1
        else if s.imageHandling = .lossy then
          ((if s.imageQuality = 0 then 80 else s.imageQuality : Nat) : Rat) / 100
        else if targetFormat = "jpg" then 85 / 100 else 1
      | none => if targetFormat = "jpg" then 85 / 100 else 1
    let mime := if targetFormat = "jpg" then "image/jpeg" else "image/png"
    let qualityArg : Option Rat :=
      if targetFormat = "jpg" then some quality else none
    let whiteFill : Bool := targetFormat == "jpg"
    if env.canvasOk file mime (w, h) qualityArg whiteFill then
      (.ok (.canvasEncoded file mime w h qualityArg whiteFill),
       [40, 60, 80, 100])
    else
      (.error "Failed to convert image", [40, 60, 80])

/-- `convertToText`: passthrough for plain text, PDF extraction pipeline,
mammoth for DOC/DOCX, first-sheet CSV for XLS/XLSX; anything else fails. -/
def convertToText (env : ConvEnv) (file : JsFile)
    (settings : Option PreservationSettings) :
    Except String OutBlob × List Rat :=
  let fileExtension := extOf file.name
  if fileExtension = "txt" ∨ file.mimeType = "text/plain" then
    (.ok (.original file), [10, 100])
  else if fileExtension = "pdf" then
    match extractTextFromPDF env file settings with
    | (.ok extractedText, tr) =>
      (.ok (.textBlob extractedText "text/plain"), [10] ++ tr ++ [100])
    | (.error e, tr) => (.error e, [10] ++ tr)
  else if fileExtension = "docx" ∨ fileExtension = "doc" then
    match env.mammoth file
        (match settings with | some s => s.comments == .remove | none => false) with
    | .ok value => (.ok (.textBlob value "text/plain"), [10, 50, 95, 100])
    | .error e => (.error e, [10, 50])
  else if fileExtension = "xlsx" ∨ fileExtension = "xls" then
    match env.sheetCsv file with
    | .ok csvData => (.ok (.textBlob csvData "text/plain"), [10, 50, 95, 100])
    | .error e => (.error e, [10, 50])
  else
    (.error ("Unsupported file type for text conversion: " ++ fileExtension),
     [10])

/-- `convertToCSV`: passthrough for csv extension, first-sheet CSV for
spreadsheets, JSON array-of-objects conversion for json files; every throw
inside the JSON `try` yields the single invalid-JSON message. -/
def convertToCSV (env : ConvEnv) (file : JsFile)
    (_settings : Option PreservationSettings) :
    Except String OutBlob × List Rat :=
  let info := getFileTypeInfo file
  if info.extension = "csv" then (.ok (.original file), [30, 100])
  else if info.category = .spreadsheet then
    match env.sheetCsv file with
    | .ok csvData => (.ok (.textBlob csvData "text/csv"), [30, 60, 90, 100])
    | .error e => (.error e, [30, 60])
  else if info.extension = "json" then
    match env.parseJson file.text with
    | .ok data =>
      match jsonArrayToCsv data with
      | some csvData => (.ok (.textBlob csvData "text/csv"), [30, 60, 90, 100])
      | none => (.error "Invalid JSON format for CSV conversion", [30, 60])
    | .error _ => (.error "Invalid JSON format for CSV conversion", [30, 60])
  else
    (.error ("Unsupported file type for CSV conversion: " ++ info.extension),
     [30])

/-- `convertToDocx`: PDF extraction or plain text repackaged into a minimal
DOCX container; the XML templating of `createSimpleDocx` is abstracted to
its inputs (text and the best-fidelity flag). -/
def convertToDocx (env : ConvEnv) (file : JsFile)
    (settings : Option PreservationSettings) :
    Except String OutBlob × List Rat :=
  let info := getFileTypeInfo file
  if info.extension = "pdf" then
    match extractTextFromPDF env file settings with
    | (.ok extractedText, tr) =>
      (.ok (.docxZip extractedText (fidelityIsBest settings)),
       [30] ++ tr ++ [70, 90, 100])
    | (.error e, tr) => (.error e, [30] ++ tr)
  else if info.category = .text then
    (.ok (.docxZip file.text (fidelityIsBest settings)), [30, 60, 90, 100])
  else
    (.error ("DOCX conversion not supported for " ++ info.extension ++ " files"),
     [30])

/-- `convertFile`: validate with the oracle (the oracle throw happens before
the `try` block, so it is not wrapped), short-circuit when the file is
already in the target format, then dispatch; errors from the dispatched
converter are wrapped as `Conversion failed: …`. The second component is the
full sequence of `onProgress` values, in call order. -/
def convertFile (env : ConvEnv) (file : JsFile) (targetFormat : String)
    (settings : Option PreservationSettings) :
    Except String OutBlob × List Rat :=
  let info := getFileTypeInfo file
  match getConversionError info targetFormat with
  | some e => (.error e, [10])
  | none =>
    if targetFormat = "pdf" ∧ info.category = .pdf then
      (.ok (.original file), [10, 100])
    else if (targetFormat = "png" ∨ targetFormat = "jpg") ∧
        info.category = .image ∧ info.extension = targetFormat then
      (.ok (.original file), [10, 100])
    else if targetFormat = "txt" ∧ info.category = .text ∧
        info.extension = "txt" then
      (.ok (.original file), [10, 100])
    else
      let sub :=
        if targetFormat = "pdf" then convertToPDF env file settings
        else if targetFormat = "png" ∨ targetFormat = "jpg" then
          convertToImage env file targetFormat settings
        else if targetFormat = "txt" then convertToText env file settings
        else if targetFormat = "csv" then convertToCSV env file settings
        else if targetFormat = "docx" then convertToDocx env file settings
        else (.error ("Unsupported target format: " ++ targetFormat), [])
      match sub with
      | (.ok b, tr) => (.ok b, [10, 25] ++ tr)
      | (.error m, tr) => (.error ("Conversion failed: " ++ m), [10, 25] ++ tr)

/-! ## ZIP packaging (`createZipDownload`) -/

/-- `getFileExtension`: the file extension used for converted outputs;
notably `jpg` maps to `"jpeg"`, and unknown formats map to themselves. -/
def getFileExtension (format : String) : String :=
  match format with
  | "pdf" => "pdf"
  | "png" => "png"
  | "jpg" => "jpeg"
  | "txt" => "txt"
  | _ => format

/-- The ZIP entry name `` `${item.filename.split('.')[0]}.${extension}` ``:
everything before the first dot of the original filename, then the target
extension. -/
def zipEntryName (filename : String) (targetFormat : String) : String :=
  ((jsSplit filename (Char.ofNat 46)).headD "") ++ "." ++
    getFileExtension targetFormat

/-- One `zip.file(name, content)` call: JSZip replaces the content of an
existing entry with the same name and otherwise appends a new entry. -/
def zipUpsert (entries : List (String × OutBlob)) (e : String × OutBlob) :
    List (String × OutBlob) :=
  if entries.any (fun x => x.1 == e.1) then
    entries.map (fun x => if x.1 == e.1 then (x.1, e.2) else x)
  else entries ++ [e]

/-- The entry table produced by a sequence of `zip.file` calls. -/
def zipStore (writes : List (String × OutBlob)) : List (String × OutBlob) :=
  writes.foldl zipUpsert []

structure ZipDownload where
  archiveName : String
  entries : List (String × OutBlob)
deriving DecidableEq, Repr

/-! ## ConversionQueue -/

inductive Status where
  | queued | converting | completed | failed
deriving DecidableEq, Repr

structure QueueItem where
  id : Nat
  file : JsFile
  filename : String
  size : Nat
  type : String
  status : Status
  progress : Rat
  error : Option String
  convertedBlob : Option OutBlob
deriving DecidableEq, Repr

/-- `createZipDownload`: one write per item holding a converted blob, named
by `zipEntryName`; the archive name is timestamp-based (`now`). -/
def createZipDownload (items : List QueueItem) (targetFormat : String)
    (now : Nat) : ZipDownload :=
  { archiveName := "converted-files-" ++ toString now ++ ".zip",
    entries := zipStore (items.filterMap (fun item =>
      item.convertedBlob.map
        (fun b => (zipEntryName item.filename targetFormat, b)))) }

/-- The net effect of one conversion attempt on a queue item: the attempt
starts by setting `converting`, resetting `progress` to 0 and clearing
`error` (the converted blob is not touched); progress updates follow the
`onProgress` calls; success sets `completed`/100 and stores the blob,
failure sets `failed` and stores the message (progress stays at the last
reported value). -/
def applyOutcome (item : QueueItem)
    (out : Except String OutBlob × List Rat) : QueueItem :=
  let started : QueueItem :=
    { item with status := .converting, progress := 0, error := none }
  let during : QueueItem := { started with progress := out.2.getLastD 0 }
  match out.1 with
  | .ok b =>
    { during with status := .completed, progress := 100, convertedBlob := some b }
  | .error m => { during with status := .failed, error := some m }

/-- Convert one snapshot item and write the outcome back to every queue
entry with its id (the `setQueue(prev => prev.map(...))` pattern). -/
def runOn (env : ConvEnv) (targetFormat : String)
    (settings : Option PreservationSettings)
    (q : List QueueItem) (item : QueueItem) : List QueueItem :=
  q.map (fun x =>
    if x.id = item.id then
      applyOutcome x (convertFile env item.file targetFormat settings)
    else x)

/-- `convertAll`: target the queued and failed items; if any of them has a
non-null oracle error, reject the whole batch with the first such item's
message and convert nothing; otherwise convert them sequentially, passing
the user's preservation settings. The second component is the toast error,
if any. -/
def convertAll (env : ConvEnv) (settings : PreservationSettings)
    (queue : List QueueItem) (targetFormat : String) :
    List QueueItem × Option String :=
  let queuedItems := queue.filter
    (fun i => i.status == .queued || i.status == .failed)
  let invalidItems := queuedItems.filter
    (fun i => (getConversionError (getFileTypeInfo i.file) targetFormat).isSome)
  match invalidItems with
  | bad :: _ =>
    (queue,
     some ((getConversionError (getFileTypeInfo bad.file) targetFormat).getD
       "Some files cannot be converted to the selected format"))
  | [] =>
    if queuedItems.isEmpty then (queue, some "No files to convert")
    else (queuedItems.foldl (runOn env targetFormat (some settings)) queue, none)

/-- `convertSpecific`: validate the given items against the target; reject
the whole batch with the first invalid item's message, otherwise convert
them sequentially. The preservation settings are not passed. -/
def convertSpecific (env : ConvEnv) (queue : List QueueItem)
    (items : List QueueItem) (target : Format) :
    List QueueItem × Option String :=
  let invalid := items.filter
    (fun it => (getConversionError (getFileTypeInfo it.file) target.str).isSome)
  match invalid with
  | bad :: _ =>
    (queue,
     some ((getConversionError (getFileTypeInfo bad.file) target.str).getD
       "Some files cannot be converted to this format"))
  | [] => (items.foldl (runOn env target.str none) queue, none)

/-- `pickPrimaryTarget`: the first format of the fixed preference order
(pdf, png, jpg, csv, txt, docx) that the matrix allows for the single
file. -/
def pickPrimaryTarget (file : JsFile) : Option Format :=
  let allowed := (getValidTargetFormats [getFileTypeInfo file]).map (·.format)
  [Format.pdf, .png, .jpg, .csv, .txt, .docx].find?
    (fun f => allowed.contains f)

/-- `getSelectedFilesByType`: group the selected items by category in
first-encounter order, preserving selection order inside each group. -/
def groupByCategory (items : List QueueItem) :
    List (Category × List QueueItem) :=
  items.foldl (fun groups item =>
    let key := (getFileTypeInfo item.file).category
    if groups.any (fun g => g.1 == key) then
      groups.map (fun g => if g.1 == key then (g.1, g.2 ++ [item]) else g)
    else groups ++ [(key, [item])]) []

/-- `convertSelectedFiles`: convert every selected item, grouped by
category, with the per-type target
(`selectedTypeTargets[fileType] || pickPrimaryTarget(files[0].file) || 'pdf'`).
No oracle pre-validation is performed, completed items are re-converted,
and the preservation settings are not passed. -/
def convertSelectedFiles (env : ConvEnv) (queue : List QueueItem)
    (selectedIds : List Nat) (selectedTypeTargets : Category → Option Format) :
    List QueueItem :=
  let selectedItems := selectedIds.filterMap
    (fun fid => queue.find? (fun q => q.id == fid))
  let groups := groupByCategory selectedItems
  groups.foldl (fun q grp =>
    let target :=
      match selectedTypeTargets grp.1 with
      | some t => t
      | none =>
        match grp.2.head? with
        | some f => (pickPrimaryTarget f.file).getD .pdf
        | none => .pdf
    grp.2.foldl (runOn env target.str none) q) queue

/-- `retryItem`: re-convert the item with the given id at the current target
format. The preservation settings argument is not passed to `convertFile`. -/
def retryItem (env : ConvEnv) (queue : List QueueItem)
    (targetFormat : String) (id : Nat) : List QueueItem :=
  match queue.find? (fun q => q.id == id) with
  | none => queue
  | some item => runOn env targetFormat none queue item

/-- `addFilesToQueue`: reject the whole batch over the 100-file cap, drop
oversized files, and append fresh `queued` items (ids are supplied with the
files; the source generates them from name, time and randomness). -/
def addFilesToQueue (queue : List QueueItem) (files : List (Nat × JsFile)) :
    List QueueItem :=
  if queue.length + files.length > 100 then queue
  else
    let validFiles := files.filter (fun f => f.2.size ≤ 50 * 1024 * 1024)
    queue ++ validFiles.map (fun f =>
      { id := f.1, file := f.2, filename := f.2.name, size := f.2.size,
        type := if f.2.mimeType = "" then "application/octet-stream"
                else f.2.mimeType,
        status := .queued, progress := 0, error := none,
        convertedBlob := none })

/-- One queue operation, as invocable from the converter page. -/
inductive QueueStep (env : ConvEnv) : List QueueItem → List QueueItem → Prop
  | add (q : List QueueItem) (files : List (Nat × JsFile)) :
      QueueStep env q (addFilesToQueue q files)
  | convertAllOp (q : List QueueItem) (settings : PreservationSettings)
      (target : String) :
      QueueStep env q (convertAll env settings q target).1
  | convertSpecificOp (q : List QueueItem) (ids : List Nat) (target : Format) :
      QueueStep env q (convertSpecific env q
        (ids.filterMap (fun fid => q.find? (fun x => x.id == fid))) target).1
  | convertSelectedOp (q : List QueueItem) (sel : List Nat)
      (targets : Category → Option Format) :
      QueueStep env q (convertSelectedFiles env q sel targets)
  | retryOp (q : List QueueItem) (target : String) (id : Nat) :
      QueueStep env q (retryItem env q target id)
  | removeOp (q : List QueueItem) (id : Nat) :
      QueueStep env q (q.filter (fun i => i.id != id))
  | clearOp (q : List QueueItem) : QueueStep env q []

/-- Queue states reachable from the empty queue by queue operations. -/
def ReachableQueue (env : ConvEnv) (q : List QueueItem) : Prop :=
  Relation.ReflTransGen (QueueStep env) [] q

/-! ## PageAssembler: `splitPDF` -/

inductive PageType where
  | pdf | image
deriving DecidableEq, Repr

structure PageData where
  id : String
  filename : String
  type : PageType
  originalFile : JsFile
  pageNumber : Option Int
  totalPages : Option Nat
  rotation : Int
  width : Rat
  height : Rat
deriving DecidableEq, Repr

/-- One page copied into the split output: the source document, the copied
page index (`pageNumber! - 1`; `none` stands for the NaN index produced by
an absent `pageNumber`), and the rotation override (`setRotation` is applied
only when the unit's rotation is nonzero). -/
structure CopiedPage where
  sourceFile : JsFile
  pageIndex : Option Int
  rotationOverride : Option Int
deriving DecidableEq, Repr

structure SplitResult where
  pages : List CopiedPage
  downloadName : String
deriving DecidableEq, Repr

def copyForSplit (p : PageData) : CopiedPage :=
  { sourceFile := p.originalFile,
    pageIndex := p.pageNumber.map (· - 1),
    rotationOverride := if p.rotation ≠ 0 then some p.rotation else none }

/-- `splitPDF`: select the pages whose ids are in the selection; return with
no output when the selection matches nothing; otherwise copy only the
pdf-typed units, in list order, and download as `split-document.pdf`. -/
def splitPDF (pages : List PageData) (selectedPageIds : List String) :
    Option SplitResult :=
  let selectedPages := pages.filter (fun p => selectedPageIds.contains p.id)
  if selectedPages.length = 0 then none
  else some
    { pages := selectedPages.filterMap
        (fun p => if p.type == .pdf then some (copyForSplit p) else none),
      downloadName := "split-document.pdf" }

/-! ## Specification-side comparison definitions -/

/-- The basename the specification describes for ZIP entries: the original
filename without its extension (everything before the last dot; a dotless
name is returned whole). Used only to compare against the naming the code
computes. -/
def specBasename (filename : String) : String :=
  let parts := jsSplit filename (Char.ofNat 46)
  if parts.length ≤ 1 then filename
  else String.intercalate "." parts.dropLast

/-- The per-item invariant asserted by the specification: `error` is present
iff the status is `failed`, and a `completed` item holds a converted blob. -/
def ItemInv (i : QueueItem) : Prop :=
  (i.error.isSome ↔ i.status = .failed) ∧
  (i.status = .completed → i.convertedBlob.isSome)

/-! ## Concrete test fixtures

Environments, files and queue items used by witnesses and
counterexamples. -/

/-- An environment whose every capability fails; concrete environments
override the capabilities they exercise. -/
def baseEnv : ConvEnv :=
  { pdfPages := fun _ => .error "pdf load failed",
    mammoth := fun _ _ => .error "mammoth failed",
    sheetCsv := fun _ => .error "sheet read failed",
    imageDims := fun _ => .error (),
    canvasOk := fun _ _ _ _ _ => false,
    embedImage := fun _ => .error "embed failed",
    ocr := fun _ => ⟨[], [], .error ()⟩,
    parseJson := fun _ => .error () }

def defaultSettings : PreservationSettings :=
  ⟨.balanced, .keep, .accept, .keep, .auto, 80⟩

def losslessSettings : PreservationSettings :=
  ⟨.balanced, .keep, .accept, .keep, .lossless, 90⟩

/-- A `.csv` file whose declared MIME type is `text/plain`. -/
def csvTextFile : JsFile := ⟨"data.csv", "text/plain", 3, "a,b", 7⟩

def jsonGoodVal : Json :=
  .arr [.obj [("a", .num 1), ("b", .str "x")],
        .obj [("a", .num 2), ("b", .str "y")]]

def jsonArrVal : Json :=
  .arr [.arr [.num 1, .num 2], .arr [.num 3, .num 4]]

def jsonObjVal : Json := .obj [("a", .num 1)]

def jsonPrimVal : Json := .arr [.num 1, .num 2, .num 3]

def jsonGoodText : String := "[\x7b\"a\":1,\"b\":\"x\"\x7d,\x7b\"a\":2,\"b\":\"y\"\x7d]"

def jsonArrText : String := "[[1,2],[3,4]]"

def jsonObjText : String := "\x7b\"a\":1\x7d"

def jsonPrimText : String := "[1,2,3]"

/-- An environment whose `JSON.parse` capability decodes exactly the four
concrete JSON texts above to their values. -/
def envJson : ConvEnv :=
  { baseEnv with parseJson := fun s =>
      if s = jsonGoodText then .ok jsonGoodVal
      else if s = jsonArrText then .ok jsonArrVal
      else if s = jsonObjText then .ok jsonObjVal
      else if s = jsonPrimText then .ok jsonPrimVal
      else .error () }

def jsonFile (content : String) (idx : Nat) : JsFile :=
  ⟨"data.json", "application/json", content.length, content, idx⟩

def scanPdfFile : JsFile := ⟨"scan.pdf", "application/pdf", 8, "", 71⟩

/-- A one-page PDF whose native text layer is just `"hi"`, with a failing
OCR engine. -/
def envScanOcrFail : ConvEnv :=
  { baseEnv with
    pdfPages := fun _ => .ok [[⟨"hi", 0, 0⟩]],
    ocr := fun _ => ⟨[], [85], .error ()⟩ }

/-- The same near-empty PDF with an OCR engine that recognizes text. -/
def envScanOcrOk : ConvEnv :=
  { baseEnv with
    pdfPages := fun _ => .ok [[⟨"hi", 0, 0⟩]],
    ocr := fun _ => ⟨[1 / 2], [], .ok "SCANNED TEXT"⟩ }

def photoFile : JsFile := ⟨"photo.png", "image/png", 5, "", 11⟩

def envImage : ConvEnv :=
  { baseEnv with
    imageDims := fun _ => .ok (10, 20),
    canvasOk := fun _ _ _ _ _ => true }

def failedPhotoItem : QueueItem :=
  { id := 4, file := photoFile, filename := "photo.png", size := 5,
    type := "image/png", status := .failed, progress := 40,
    error := some "Conversion failed: Failed to load image",
    convertedBlob := none }

def envSheet : ConvEnv := { baseEnv with sheetCsv := fun _ => .ok "a,b\n1,2" }

def txtQueuedItem : QueueItem :=
  { id := 21, file := ⟨"notes.txt", "text/plain", 5, "hello", 21⟩,
    filename := "notes.txt", size := 5, type := "text/plain",
    status := .queued, progress := 0, error := none, convertedBlob := none }

def sheetQueuedItem : QueueItem :=
  { id := 22, file := ⟨"table.csv", "text/csv", 3, "a,b", 22⟩,
    filename := "table.csv", size := 3, type := "text/csv",
    status := .queued, progress := 0, error := none, convertedBlob := none }

/-- Per-type targets selecting PNG for text files and PDF for
spreadsheets. -/
def c3Targets : Category → Option Format := fun c =>
  match c with
  | .text => some .png
  | .spreadsheet => some .pdf
  | _ => none

def sheetFile8 : JsFile := ⟨"table.csv", "text/csv", 3, "a,b", 31⟩

def reportItem : QueueItem :=
  { id := 1, file := ⟨"report.final.txt", "text/plain", 5, "hello", 41⟩,
    filename := "report.final.txt", size := 5, type := "text/plain",
    status := .completed, progress := 100, error := none,
    convertedBlob := some (.textBlob "hello" "text/plain") }

def photoItem : QueueItem :=
  { id := 2, file := ⟨"photo.png", "image/png", 4, "", 42⟩,
    filename := "photo.png", size := 4, type := "image/png",
    status := .completed, progress := 100, error := none,
    convertedBlob := some (.canvasEncoded ⟨"photo.png", "image/png", 4, "", 42⟩
      "image/png" 1 1 none false) }

def failedNoBlobItem : QueueItem :=
  { id := 3, file := ⟨"bad.csv", "text/csv", 2, "z", 43⟩,
    filename := "bad.csv", size := 2, type := "text/csv",
    status := .failed, progress := 10,
    error := some "Conversion failed: sheet read failed", convertedBlob := none }

/-! ## Helper lemmas -/

theorem filter_filterMap_if {α β : Type} (l : List α) (a : α → Bool)
    (b : α → Bool) (f : α → β) :
    (l.filter a).filterMap (fun x => if b x then some (f x) else none) =
      (l.filter (fun x => a x && b x)).map f := by
  induction l with
  | nil => rfl
  | cons x xs ih =>
    by_cases ha : a x
    · by_cases hb : b x
      · simp [List.filter_cons, ha, hb, List.filterMap_cons, ih]
      · simp [List.filter_cons, ha, hb, List.filterMap_cons, ih]
    · simp [List.filter_cons, ha, ih]

theorem zipStore_aux (writes acc : List (String × OutBlob))
    (h : ((acc ++ writes).map Prod.fst).Nodup) :
    writes.foldl zipUpsert acc = acc ++ writes := by
  induction writes generalizing acc with
  | nil => rw [List.foldl_nil, List.append_nil]
  | cons w ws ih =>
    have hkey : w.1 ∉ acc.map Prod.fst := by
      intro hmem
      rw [List.map_append] at h
      have hd := (List.nodup_append.mp h).2.2
      exact hd hmem (by simp)
    have hany : acc.any (fun x => x.1 == w.1) = false := by
      rw [List.any_eq_false]
      intro x hx hbeq
      have hx1 : x.1 = w.1 := by simpa using hbeq
      exact hkey (hx1 ▸ (List.mem_map_of_mem Prod.fst hx))
    rw [List.foldl_cons]
    have hstep : zipUpsert acc w = acc ++ [w] := by
      unfold zipUpsert
      rw [hany]
      simp
    rw [hstep, ih (acc ++ [w]) (by simpa using h)]
    simp

theorem zipWrites_names (items : List QueueItem) (targetFormat : String) :
    (items.filterMap (fun item => item.convertedBlob.map
      (fun b => (zipEntryName item.filename targetFormat, b)))).map Prod.fst =
    (items.filter (fun i => i.convertedBlob.isSome)).map
      (fun i => zipEntryName i.filename targetFormat) := by
  induction items with
  | nil => rfl
  | cons x xs ih =>
    cases hb : x.convertedBlob with
    | none => simp [List.filterMap_cons, List.filter_cons, hb, ih]
    | some b => simp [List.filterMap_cons, List.filter_cons, hb, ih]

theorem itemInv_applyOutcome (x : QueueItem)
    (out : Except String OutBlob × List Rat) :
    ItemInv (applyOutcome x out) := by
  rcases out with ⟨res, tr⟩
  cases res <;> simp [applyOutcome, ItemInv]

theorem invAll_runOn (env : ConvEnv) (t : String)
    (s : Option PreservationSettings) (q : List QueueItem) (item : QueueItem)
    (h : ∀ i ∈ q, ItemInv i) : ∀ i ∈ runOn env t s q item, ItemInv i := by
  intro i hi
  unfold runOn at hi
  rw [List.mem_map] at hi
  obtain ⟨x, hx, rfl⟩ := hi
  by_cases hid : x.id = item.id
  · simpa [hid] using itemInv_applyOutcome x (convertFile env item.file t s)
  · simpa [hid] using h x hx

theorem invAll_foldl {α : Type} (g : List QueueItem → α → List QueueItem)
    (hpres : ∀ q a, (∀ i ∈ q, ItemInv i) → ∀ i ∈ g q a, ItemInv i)
    (l : List α) (q : List QueueItem) (h : ∀ i ∈ q, ItemInv i) :
    ∀ i ∈ l.foldl g q, ItemInv i := by
  induction l generalizing q with
  | nil => exact h
  | cons a as ih => exact ih _ (hpres q a h)

/-! ## Claim theorems -/

/-- Claim C1 counterexample: the Oracle/Matrix consistency is not an `iff`.
For a single `document` file and target `png`, the matrix omits `png` (its
gate requires every category to be image or pdf) while the Oracle returns
`null` (`document` has no entry in the impossible-conversions table). -/
theorem c1_oracle_matrix_consistency_counterexample :
    getConversionError
      ⟨.document, "docx",
        "application/vnd.openxmlformats-officedocument.wordprocessingml.document"⟩
      "png" = none ∧
    ((getValidTargetFormats
      [⟨.document, "docx",
        "application/vnd.openxmlformats-officedocument.wordprocessingml.document"⟩]).map
      (·.format)).contains .png = false := by
  refine ⟨rfl, by decide⟩

/-- Claim C1 (amended): only the forward direction holds. Whenever the
Oracle (`getConversionError`) returns a non-null error for a file and a
target-format string, the CompatibilityMatrix (`getValidTargetFormats`)
applied to the single-file batch omits that target from its result. The
converse fails (see the counterexample). -/
theorem c1_oracle_error_implies_matrix_omits (f : FileTypeInfo) (t : String)
    (h : (getConversionError f t).isSome) :
    ∀ d ∈ getValidTargetFormats [f], d.format.str ≠ t := by
  obtain ⟨cat, ext, mime⟩ := f
  intro d hd
  cases cat with
  | document => simp [getConversionError, impossibleTargets] at h
  | spreadsheet => simp [getConversionError, impossibleTargets] at h
  | presentation => simp [getConversionError, impossibleTargets] at h
  | pdf => simp [getConversionError, impossibleTargets] at h
  | text =>
    simp [getConversionError, impossibleTargets] at h
    simp [getValidTargetFormats] at hd
    rcases hd with rfl | rfl | rfl | rfl <;> rcases h with rfl | rfl <;>
      simp [Format.str]
  | image =>
    simp [getConversionError, impossibleTargets] at h
    simp [getValidTargetFormats] at hd
    rcases hd with rfl | rfl | rfl <;> rcases h with rfl | rfl | rfl <;>
      simp [Format.str]
  | unknown =>
    simp [getConversionError, impossibleTargets] at h
    simp [getValidTargetFormats] at hd

/-- Witness for C1: an image file and target `docx`, where the Oracle
reports an error and the matrix indeed omits `docx`. -/
theorem c1_oracle_error_implies_matrix_omits_witness :
    (getConversionError ⟨.image, "png", "image/png"⟩ "docx").isSome = true ∧
    ∀ d ∈ getValidTargetFormats [⟨.image, "png", "image/png"⟩],
      d.format.str ≠ "docx" :=
  ⟨by decide, c1_oracle_error_implies_matrix_omits
    ⟨.image, "png", "image/png"⟩ "docx" (by decide)⟩

/-- Claim C2 (code bug): converting the `.csv`-named, `text/plain`-typed
file to `txt` succeeds (the passthrough branch of `convertToText`), but the
`onProgress` sequence is `10, 25, 10, 100`: `convertFile` reports 25 before
dispatching and `convertToText` then restarts at 10, so progress regresses
even though the sequence does end at exactly 100. This violates the
progress-monotonicity property the specification states. -/
theorem c2_convertFile_progress_regresses (env : ConvEnv) :
    convertFile env csvTextFile "txt" none =
      (.ok (.original csvTextFile), [10, 25, 10, 100]) ∧
    nonDecreasing [10, 25, 10, 100] = false ∧
    ([10, 25, 10, 100] : List Rat).getLast? = some 100 :=
  ⟨rfl, by decide, by decide⟩

/-- Claim C3 counterexample: `convertSelectedFiles` performs no Oracle
pre-validation. With a text file targeted at `png` (non-null Oracle error)
and a spreadsheet targeted at `pdf` selected together, the spreadsheet is
converted (completed, blob present) while the text item fails individually:
the batch is not rejected and more than zero items are converted. -/
theorem c3_convert_selected_skips_prevalidation :
    (getConversionError (getFileTypeInfo txtQueuedItem.file) "png").isSome =
      true ∧
    (convertSelectedFiles envSheet [txtQueuedItem, sheetQueuedItem] [21, 22]
        c3Targets).map (fun i => (i.id, i.status, i.convertedBlob.isSome)) =
      [(21, .failed, false), (22, .completed, true)] :=
  ⟨rfl, rfl⟩

/-- Claim C3 (amended): `convertAll` and `convertSpecific` pre-validate
every targeted item against the Oracle and reject the whole batch with the
first invalid item's message, leaving the queue unchanged (zero
conversions); `convertSelectedFiles`, however, performs no pre-validation
(see the counterexample). -/
theorem c3_batch_prevalidation (env : ConvEnv)
    (settings : PreservationSettings) (queue items : List QueueItem)
    (target : String) (tf : Format) (bad bad2 : QueueItem)
    (rest rest2 : List QueueItem) :
    ((queue.filter (fun i => i.status == .queued || i.status == .failed)).filter
        (fun i => (getConversionError (getFileTypeInfo i.file) target).isSome) =
        bad :: rest →
      convertAll env settings queue target =
        (queue, some ((getConversionError (getFileTypeInfo bad.file)
          target).getD "Some files cannot be converted to the selected format"))) ∧
    (items.filter (fun it =>
        (getConversionError (getFileTypeInfo it.file) tf.str).isSome) =
        bad2 :: rest2 →
      convertSpecific env queue items tf =
        (queue, some ((getConversionError (getFileTypeInfo bad2.file)
          tf.str).getD "Some files cannot be converted to this format"))) := by
  constructor
  · intro h
    simp only [convertAll, h]
  · intro h
    simp only [convertSpecific, h]

/-- Witness for C3: a queued text file with target `png` makes `convertAll`
reject the batch with that item's Oracle message and leave the queue
unchanged. -/
theorem c3_batch_prevalidation_witness :
    (([txtQueuedItem].filter
        (fun i => i.status == Status.queued || i.status == Status.failed)).filter
      (fun i => (getConversionError (getFileTypeInfo i.file) "png").isSome) =
      txtQueuedItem :: []) ∧
    convertAll envSheet defaultSettings [txtQueuedItem] "png" =
      ([txtQueuedItem],
       some ((getConversionError (getFileTypeInfo txtQueuedItem.file)
         "png").getD "Some files cannot be converted to the selected format")) :=
  ⟨rfl, (c3_batch_prevalidation envSheet defaultSettings [txtQueuedItem] []
    "png" .pdf txtQueuedItem txtQueuedItem [] []).1 rfl⟩

/-- Claim C4 counterexample: the JSON input `[[1,2],[3,4]]` is an array of
arrays, not an array of objects, yet the conversion succeeds (JavaScript
`typeof [] === 'object'`), producing the index-keyed CSV `0,1\n1,2\n3,4`. -/
theorem c4_json_array_of_arrays_converts :
    convertFile envJson (jsonFile jsonArrText 51) "csv" none =
      (.ok (.textBlob "0,1\n1,2\n3,4" "text/csv"), [10, 25, 30, 60, 90, 100]) ∧
    jsonArrVal = Json.arr [.arr [.num 1, .num 2], .arr [.num 3, .num 4]] :=
  ⟨rfl, rfl⟩

/-- Claim C4 (amended): the JSON input
`[ {"a":1,"b":"x"}, {"a":2,"b":"y"} ]` converts to exactly
`a,b\n1,"x"\n2,"y"` (header from the first object's keys, cells individually
JSON-stringified); a single object and an array of primitives fail with the
descriptive invalid-JSON error; and in general every parsed value that is
not a non-empty array whose first element has JavaScript object type fails.
An array whose first element is itself an array (or `null`, via a thrown key
extraction) slips past the object check — see the counterexample. -/
theorem c4_json_to_csv :
    convertFile envJson (jsonFile jsonGoodText 50) "csv" none =
      (.ok (.textBlob "a,b\n1,\"x\"\n2,\"y\"" "text/csv"),
       [10, 25, 30, 60, 90, 100]) ∧
    convertFile envJson (jsonFile jsonObjText 52) "csv" none =
      (.error "Conversion failed: Invalid JSON format for CSV conversion",
       [10, 25, 30, 60]) ∧
    convertFile envJson (jsonFile jsonPrimText 53) "csv" none =
      (.error "Conversion failed: Invalid JSON format for CSV conversion",
       [10, 25, 30, 60]) ∧
    ∀ v : Json, isArrayWithObjectHead v = false → jsonArrayToCsv v = none := by
  refine ⟨rfl, rfl, rfl, ?_⟩
  intro v h
  match v with
  | .null => rfl
  | .bool b => rfl
  | .num n => rfl
  | .str s => rfl
  | .obj fields => rfl
  | .arr [] => rfl
  | .arr (first :: rest) =>
    simp only [isArrayWithObjectHead] at h
    simp [jsonArrayToCsv, h]

/-- Witness for C4: a bare number is not an array of objects and the JSON
branch throws on it. -/
theorem c4_json_to_csv_witness :
    isArrayWithObjectHead (Json.num 3) = false ∧
    jsonArrayToCsv (Json.num 3) = none :=
  ⟨rfl, c4_json_to_csv.2.2.2 (Json.num 3) rfl⟩

/-- Claim C5 (confirmed): for every file already in its target
category/extension (pdf file to pdf, image file whose extension equals the
png/jpg target, txt text file to txt), `convertFile` returns the original
file unchanged and the progress sequence is exactly `10, 100`: the value
100 is reported exactly once, as the terminal value. -/
theorem c5_short_circuit_returns_original (env : ConvEnv) (file : JsFile)
    (targetFormat : String) (settings : Option PreservationSettings)
    (h : (targetFormat = "pdf" ∧ (getFileTypeInfo file).category = .pdf) ∨
      ((targetFormat = "png" ∨ targetFormat = "jpg") ∧
        (getFileTypeInfo file).category = .image ∧
        (getFileTypeInfo file).extension = targetFormat) ∨
      (targetFormat = "txt" ∧ (getFileTypeInfo file).category = .text ∧
        (getFileTypeInfo file).extension = "txt")) :
    convertFile env file targetFormat settings =
      (.ok (.original file), [10, 100]) ∧
    (convertFile env file targetFormat settings).2.count 100 = 1 ∧
    (convertFile env file targetFormat settings).2.getLast? = some 100 := by
  have hmain : convertFile env file targetFormat settings =
      (.ok (.original file), [10, 100]) := by
    rcases h with ⟨rfl, hcat⟩ | ⟨ht, hcat, hext⟩ | ⟨rfl, hcat, hext⟩
    · have hor : getConversionError (getFileTypeInfo file) "pdf" = none := by
        simp [getConversionError, impossibleTargets, hcat]
      simp [convertFile, hor, hcat]
    · rcases ht with rfl | rfl
      · have hor : getConversionError (getFileTypeInfo file) "png" = none := by
          simp [getConversionError, impossibleTargets, hcat]
        simp [convertFile, hor, hcat, hext]
      · have hor : getConversionError (getFileTypeInfo file) "jpg" = none := by
          simp [getConversionError, impossibleTargets, hcat]
        simp [convertFile, hor, hcat, hext]
    · have hor : getConversionError (getFileTypeInfo file) "txt" = none := by
        simp [getConversionError, impossibleTargets, hcat]
      simp [convertFile, hor, hcat, hext]
  refine ⟨hmain, ?_, ?_⟩ <;> rw [hmain] <;> rfl

/-- Witness for C5: a PDF file converted to `pdf` is returned unchanged
with progress `10, 100`. -/
theorem c5_short_circuit_returns_original_witness :
    ((getFileTypeInfo ⟨"doc.pdf", "application/pdf", 9, "", 61⟩).category =
      Category.pdf) ∧
    convertFile baseEnv ⟨"doc.pdf", "application/pdf", 9, "", 61⟩ "pdf" none =
      (.ok (.original ⟨"doc.pdf", "application/pdf", 9, "", 61⟩), [10, 100]) :=
  ⟨by decide,
   (c5_short_circuit_returns_original baseEnv
     ⟨"doc.pdf", "application/pdf", 9, "", 61⟩ "pdf" none
     (Or.inl ⟨rfl, by decide⟩)).1⟩

/-- Claim C6 (confirmed): when the concatenated natively extracted text,
trimmed, is shorter than 50 characters and fidelity is not `fast`,
`extractTextFromPDF` succeeds with the OCR pipeline result (the cleaned OCR
text, or the fixed no-readable-text placeholder when that text trims to
empty) — a value independent of the native extraction; and when the OCR run
itself fails, the function still succeeds, returning the fixed
human-readable OCR-failure placeholder instead of failing the conversion. -/
theorem c6_pdf_ocr_fallback (env : ConvEnv) (file : JsFile)
    (settings : Option PreservationSettings) (pages : List (List PdfTextItem))
    (hpages : env.pdfPages file = .ok pages)
    (hshort : (jsTrim (nativeExtract pages (fidelityOf settings))).length < 50)
    (hfast : fidelityOf settings ≠ .fast) :
    (extractTextFromPDF env file settings).1 =
      .ok (if jsTrim (extractTextWithOCR env file settings).1 = ""
           then noReadableMessage
           else jsTrim (extractTextWithOCR env file settings).1) ∧
    ((env.ocr file).result = .error () →
      (extractTextFromPDF env file settings).1 = .ok ocrFailedMessage) := by
  have hmain : (extractTextFromPDF env file settings).1 =
      .ok (if jsTrim (extractTextWithOCR env file settings).1 = ""
           then noReadableMessage
           else jsTrim (extractTextWithOCR env file settings).1) := by
    rcases hocr : extractTextWithOCR env file settings with ⟨t, tr⟩
    unfold extractTextFromPDF
    rw [hpages]
    simp only [hocr, if_pos (And.intro hshort hfast)]
  refine ⟨hmain, fun hfail => ?_⟩
  have hocrRes : extractTextWithOCR env file settings =
      (ocrFailedMessage, (env.ocr file).failEmitted) := by
    simp only [extractTextWithOCR, hfail]
  rw [hmain, hocrRes]
  have htrim : jsTrim ocrFailedMessage = ocrFailedMessage := by decide
  rw [htrim, if_neg (by decide : ¬ (ocrFailedMessage = ""))]

/-- Witness for C6: a one-page PDF with 2 characters of native text. With a
failing OCR engine the extraction still succeeds with the fixed
placeholder; with a working OCR engine it returns the recognized text. -/
theorem c6_pdf_ocr_fallback_witness :
    (envScanOcrFail.pdfPages scanPdfFile = .ok [[⟨"hi", 0, 0⟩]] ∧
     (jsTrim (nativeExtract [[⟨"hi", 0, 0⟩]] (fidelityOf none))).length < 50 ∧
     fidelityOf none ≠ Fidelity.fast) ∧
    (extractTextFromPDF envScanOcrFail scanPdfFile none).1 =
      .ok ocrFailedMessage ∧
    (extractTextFromPDF envScanOcrOk scanPdfFile none).1 =
      .ok "SCANNED TEXT" := by
  refine ⟨⟨rfl, by decide, by decide⟩, ?_, ?_⟩
  · exact (c6_pdf_ocr_fallback envScanOcrFail scanPdfFile none
      [[⟨"hi", 0, 0⟩]] rfl (by decide) (by decide)).2 rfl
  · rw [(c6_pdf_ocr_fallback envScanOcrOk scanPdfFile none
      [[⟨"hi", 0, 0⟩]] rfl (by decide) (by decide)).1]
    exact congrArg Except.ok (by decide)

/-- Claim C7 counterexample: the ZIP entry for the item with original
filename `report.final.txt` converted to `pdf` is named `report.pdf` — the
text before the FIRST dot — not `report.final.pdf` as the claim (basename =
filename without its extension) requires; and for target `jpg` the entry
extension is `jpeg`, not `jpg`. -/
theorem c7_zip_naming_counterexample :
    (createZipDownload [reportItem] "pdf" 0).entries.map Prod.fst =
      ["report.pdf"] ∧
    specBasename "report.final.txt" = "report.final" ∧
    ("report.pdf" : String) ≠ "report.final" ++ "." ++ "pdf" ∧
    zipEntryName "photo.png" "jpg" = "photo.jpeg" ∧
    ("photo.jpeg" : String) ≠ "photo" ++ "." ++ "jpg" := by
  refine ⟨rfl, by decide, by decide, rfl, by decide⟩

/-- Claim C7 (amended): the ZIP archive receives one write per item holding
a converted blob, named `<text before the first dot of the filename>.<ext>`
with `ext = getFileExtension targetFormat` (so `jpeg` for `jpg`); when
those names are pairwise distinct the archive holds exactly one entry per
successfully converted item, in order (identically named writes would
overwrite). -/
theorem c7_zip_one_entry_per_item (items : List QueueItem)
    (targetFormat : String) (now : Nat)
    (hnodup : ((items.filter (fun i => i.convertedBlob.isSome)).map
      (fun i => zipEntryName i.filename targetFormat)).Nodup) :
    (createZipDownload items targetFormat now).entries =
      items.filterMap (fun item => item.convertedBlob.map
        (fun b => (zipEntryName item.filename targetFormat, b))) ∧
    (createZipDownload items targetFormat now).entries.length =
      (items.filter (fun i => i.convertedBlob.isSome)).length := by
  have hwn := zipWrites_names items targetFormat
  have h1 : (createZipDownload items targetFormat now).entries =
      items.filterMap (fun item => item.convertedBlob.map
        (fun b => (zipEntryName item.filename targetFormat, b))) := by
    unfold createZipDownload zipStore
    exact zipStore_aux _ [] (by rw [List.nil_append, hwn]; exact hnodup)
  refine ⟨h1, ?_⟩
  rw [h1]
  have := congrArg List.length hwn
  simpa using this

/-- Witness for C7: two completed items and one failed item produce exactly
two entries, named from the items and the target. -/
theorem c7_zip_one_entry_per_item_witness :
    (([reportItem, photoItem, failedNoBlobItem].filter
        (fun i => i.convertedBlob.isSome)).map
      (fun i => zipEntryName i.filename "pdf")).Nodup ∧
    (createZipDownload [reportItem, photoItem, failedNoBlobItem] "pdf"
      7).entries =
      [("report.pdf", .textBlob "hello" "text/plain"),
       ("photo.pdf", .canvasEncoded ⟨"photo.png", "image/png", 4, "", 42⟩
         "image/png" 1 1 none false)] ∧
    (createZipDownload [reportItem, photoItem, failedNoBlobItem] "pdf"
      7).entries.length = 2 := by
  have h := c7_zip_one_entry_per_item [reportItem, photoItem, failedNoBlobItem]
    "pdf" 7 (by decide)
  exact ⟨by decide, h.1.trans (by decide), h.2.trans (by decide)⟩

/-- Claim C8 counterexample: add one spreadsheet file, convert it to `pdf`
via convert-selected (it completes, storing a blob), then convert it to
`txt` via convert-selected (the converter throws). The attempt never clears
`convertedBlob`, so the final item has status `failed` while still holding
the blob of the earlier completed attempt — refuting `convertedBlob` present
iff status `completed`. -/
theorem c8_blob_retained_on_failed_item :
    (convertSelectedFiles envSheet
      (convertSelectedFiles envSheet (addFilesToQueue [] [(31, sheetFile8)])
        [31] (fun c => if c = .spreadsheet then some .pdf else none))
      [31] (fun c => if c = .spreadsheet then some .txt else none)).map
      (fun i => (i.status, i.convertedBlob.isSome, i.error.isSome)) =
    [(.failed, true, true)] := rfl

/-- Claim C8 (amended): after any sequence of queue operations starting
from the empty queue, every item satisfies: `error` is present iff status is
`failed`, and status `completed` implies `convertedBlob` is present.
`convertedBlob` present iff `completed` does not hold (a failed re-converted
item may retain the blob of an earlier completed attempt — see the
counterexample), and within-attempt progress is not non-decreasing (C2). -/
theorem c8_queue_invariants (env : ConvEnv) (q : List QueueItem)
    (h : ReachableQueue env q) : ∀ i ∈ q, ItemInv i := by
  induction h with
  | refl => intro i hi; cases hi
  | tail _ hstep ih =>
    cases hstep with
    | add files =>
      intro i hi
      unfold addFilesToQueue at hi
      split at hi
      · exact ih i hi
      · rcases List.mem_append.mp hi with hold | hnew
        · exact ih i hold
        · obtain ⟨f, _, rfl⟩ := List.mem_map.mp hnew
          exact ⟨by simp, by simp⟩
    | convertAllOp settings target =>
      simp only [convertAll]
      split
      · exact ih
      · split
        · exact ih
        · exact invAll_foldl _
            (fun qq it hh => invAll_runOn env target (some settings) qq it hh)
            _ _ ih
    | convertSpecificOp ids target =>
      simp only [convertSpecific]
      split
      · exact ih
      · exact invAll_foldl _
          (fun qq it hh => invAll_runOn env target.str none qq it hh) _ _ ih
    | convertSelectedOp sel targets =>
      unfold convertSelectedFiles
      refine invAll_foldl _ ?_ _ _ ih
      intro qq grp hh
      exact invAll_foldl _ (fun q2 it h2 => invAll_runOn env _ none q2 it h2)
        grp.2 qq hh
    | retryOp target id =>
      unfold retryItem
      split
      · exact ih
      · exact invAll_runOn env target none _ _ ih
    | removeOp id =>
      intro i hi
      exact ih i (List.mem_of_mem_filter hi)
    | clearOp =>
      intro i hi
      cases hi

/-- Witness for C8: the freshly added spreadsheet item, reached by one
`add` operation from the empty queue, satisfies the invariant. -/
theorem c8_queue_invariants_witness :
    ItemInv
      { id := 31, file := sheetFile8, filename := "table.csv", size := 3,
        type := "text/csv", status := .queued, progress := 0, error := none,
        convertedBlob := none } :=
  c8_queue_invariants envSheet (addFilesToQueue [] [(31, sheetFile8)])
    (Relation.ReflTransGen.single (QueueStep.add [] [(31, sheetFile8)]))
    _ (by decide)

/-- Claim C9 (confirmed): `retryItem` re-converts the found item by calling
`convertFile` with no settings argument (so the defaults apply: `balanced`
fidelity, `auto` image handling), while `convertAll` passes the user
settings. For the settings-sensitive png-to-jpg conversion the retry
encodes at quality 0.85 while a batch conversion under `lossless` settings
encodes at quality 1 — distinct encoder invocations, hence distinct
outputs. -/
theorem c9_retry_uses_default_settings :
    (∀ (env : ConvEnv) (q : List QueueItem) (target : String) (id : Nat)
      (item : QueueItem),
      q.find? (fun x => x.id == id) = some item →
      retryItem env q target id =
        q.map (fun x => if x.id = item.id then
          applyOutcome x (convertFile env item.file target none) else x)) ∧
    (retryItem envImage [failedPhotoItem] "jpg" 4).map (·.convertedBlob) =
      [some (.canvasEncoded photoFile "image/jpeg" 10 20 (some (85 / 100))
        true)] ∧
    ((convertAll envImage losslessSettings [failedPhotoItem] "jpg").1).map
        (·.convertedBlob) =
      [some (.canvasEncoded photoFile "image/jpeg" 10 20 (some 1) true)] ∧
    OutBlob.canvasEncoded photoFile "image/jpeg" 10 20 (some (85 / 100)) true ≠
      OutBlob.canvasEncoded photoFile "image/jpeg" 10 20 (some 1) true := by
  refine ⟨?_, rfl, rfl, ?_⟩
  · intro env q target id item hfind
    unfold retryItem
    rw [hfind]
    rfl
  · intro hcon
    have hq : ((85 : Rat) / 100) = 1 := by
      injection hcon with h1 h2 h3 h4 h5
      exact Option.some.inj h5
    norm_num at hq

/-- Witness for C9: the single failed photo item is found and retried via
`convertFile` with no settings. -/
theorem c9_retry_uses_default_settings_witness :
    ([failedPhotoItem].find? (fun x => x.id == 4) = some failedPhotoItem) ∧
    retryItem envImage [failedPhotoItem] "jpg" 4 =
      [failedPhotoItem].map (fun x => if x.id = failedPhotoItem.id then
        applyOutcome x (convertFile envImage failedPhotoItem.file "jpg" none)
        else x) :=
  ⟨rfl, c9_retry_uses_default_settings.1 envImage [failedPhotoItem] "jpg" 4
    failedPhotoItem rfl⟩

/-- Claim C10 (confirmed): `splitPDF` returns no output (no PDF created or
downloaded) when the selected ids match no page, and otherwise the output
contains exactly the selected pdf-typed page units, in list order — every
image-typed selected unit is silently omitted. -/
theorem c10_splitPDF_spec (pages : List PageData)
    (selectedPageIds : List String) :
    ((pages.filter (fun p => selectedPageIds.contains p.id)) = [] →
      splitPDF pages selectedPageIds = none) ∧
    (∀ out, splitPDF pages selectedPageIds = some out →
      out.pages = (pages.filter (fun p =>
        selectedPageIds.contains p.id && p.type == PageType.pdf)).map
        copyForSplit) := by
  constructor
  · intro h
    unfold splitPDF
    rw [h]
    rfl
  · intro out hout
    unfold splitPDF at hout
    by_cases h : (pages.filter (fun p => selectedPageIds.contains p.id)).length = 0
    · rw [if_pos h] at hout
      cases hout
    · rw [if_neg h] at hout
      obtain rfl := (Option.some.inj hout).symm
      exact filter_filterMap_if pages _ _ copyForSplit

/-- Witness for C10: a pdf page and an image page. An empty selection
produces no output; selecting both produces a single copied pdf page (the
image page is omitted), with the rotation override and 0-based index. -/
theorem c10_splitPDF_spec_witness :
    (([⟨"p1", "d.pdf", .pdf, ⟨"d.pdf", "application/pdf", 9, "", 1⟩, some 2,
        some 3, 90, 10, 20⟩,
       ⟨"p2", "i.png", .image, ⟨"i.png", "image/png", 4, "", 2⟩, none, none,
        0, 5, 5⟩] : List PageData).filter
        (fun p => (["p9"] : List String).contains p.id) = [] ∧
      splitPDF [⟨"p1", "d.pdf", .pdf, ⟨"d.pdf", "application/pdf", 9, "", 1⟩,
          some 2, some 3, 90, 10, 20⟩,
        ⟨"p2", "i.png", .image, ⟨"i.png", "image/png", 4, "", 2⟩, none, none,
          0, 5, 5⟩] ["p9"] = none) ∧
    ∀ out, splitPDF [⟨"p1", "d.pdf", .pdf,
        ⟨"d.pdf", "application/pdf", 9, "", 1⟩, some 2, some 3, 90, 10, 20⟩,
      ⟨"p2", "i.png", .image, ⟨"i.png", "image/png", 4, "", 2⟩, none, none,
        0, 5, 5⟩] ["p1", "p2"] = some out →
      out.pages = [⟨⟨"d.pdf", "application/pdf", 9, "", 1⟩, some 1, some 90⟩] := by
  refine ⟨⟨by decide, (c10_splitPDF_spec _ _).1 (by decide)⟩, ?_⟩
  intro out hout
  rw [(c10_splitPDF_spec _ _).2 out hout]
  decide

end DocFlux
